import Mathlib

/-!
Shallow embedding of the browser client in `src/static/js/script.js`
(class `VideoDownloader`).  Pure functions model each method; the
`this`-fields and the DOM cells the methods read and write are threaded
explicitly through small state records.  Timers are modelled by
recording the millisecond delay each `setTimeout(checkProgress, d)`
call requests; transport failures (rejected fetch or malformed JSON)
are the `FetchResult.fail` case, landing in a `catch` block.
-/

/-! ## Character-list models of the JavaScript string operations used -/

/-- Model of the whitespace test behind `String.prototype.trim`
(common ASCII whitespace; the full Unicode class is not needed by any
value this client produces). -/
def wsChar (ch : Char) : Bool :=
  ch == ' ' || ch == '\t' || ch == '\n' || ch == '\r'

/-- Model of `s.trim()`: drop whitespace from both ends. -/
def trimText (s : List Char) : List Char :=
  (((s.dropWhile wsChar).reverse).dropWhile wsChar).reverse

/-- Whether `pat` occurs at the start of `s`. -/
def startsWithText : List Char → List Char → Bool
  | [], _ => true
  | _ :: _, [] => false
  | p :: ps, c :: cs => p == c && startsWithText ps cs

/-- Whether `pat` occurs anywhere in `s` (substring test). -/
def occursIn (pat : List Char) : List Char → Bool
  | [] => startsWithText pat []
  | c :: cs => startsWithText pat (c :: cs) || occursIn pat cs

/-- Model of `s.replace(pat, repl)` with a string pattern: JavaScript
replaces only the first occurrence. -/
def replaceFirst (pat repl : List Char) : List Char → List Char
  | [] => if startsWithText pat [] then repl else []
  | c :: cs =>
    if startsWithText pat (c :: cs) then repl ++ (c :: cs).drop pat.length
    else c :: replaceFirst pat repl cs

/-- Model of `s.split(sep)` for a one-character separator. -/
def splitOnChar (c : Char) : List Char → List (List Char)
  | [] => [[]]
  | x :: xs =>
    if x = c then [] :: splitOnChar c xs
    else
      match splitOnChar c xs with
      | [] => [[x]]
      | s :: ss => (x :: s) :: ss

/-- Model of `s.trim()` on a whole `String`. -/
def jsTrimString (s : String) : String := ⟨trimText s.data⟩

/-- JavaScript `el.textContent = x` renders `undefined` as the string
"undefined"; absent JSON fields are `none`. -/
def jsText (o : Option String) : String := o.getD "undefined"

/-! ## Data model: the JSON shapes the client consumes -/

/-- One entry of `formats` in the `/get_info` response. -/
structure FormatDescriptor where
  format_id : String
  name : String
  type : String
  ext : String
deriving DecidableEq

/-- The `/get_info` response stored in `this.currentVideoInfo`. -/
structure VideoInfo where
  title : String
  duration : Nat
  thumbnail : String
  formats : List FormatDescriptor
deriving DecidableEq

/-- A parsed `/download_status/<id>` JSON body.  Fields absent from the
JSON are `none` (JavaScript `undefined`). -/
structure StatusPayload where
  status : String
  percent : Option String := none
  speed : Option String := none
  downloaded : Option String := none
  total_size : Option String := none
  error : Option String := none
  completed : Option Nat := none
deriving DecidableEq

/-- Outcome of one status fetch: a parsed payload, or a transport-level
failure (network rejection or malformed JSON body), which lands in the
`catch` block of the respective `checkProgress` closure. -/
inductive FetchResult where
  | ok (s : StatusPayload)
  | fail
deriving DecidableEq

/-- Value of `progressFill.style.width`.  The `downloading` branch
writes a string built with `parseFloat(status.percent) || 0`; the
numeric float parse is kept abstract by storing the raw field. -/
inductive Width where
  | pct (value : String)
  | fromPercentField (p : Option String)
deriving DecidableEq

/-- What clicking the main download button currently does
(`downloadBtn`: the constructor-installed listener runs
`startDownload`; line 219 rebinds `onclick` to `downloadFile`). -/
inductive BtnAction where
  | runStartDownload
  | runDownloadFile
deriving DecidableEq

def downloadNowLabel : String := "⬇️ Download Now"

def saveFileLabel : String := "💾 Save File"

/-- Client state touched by the single-job controller: the fields of
the `VideoDownloader` object plus the DOM cells it reads and writes. -/
structure DState where
  currentDownloadId : Option String
  currentVideoInfo : Option VideoInfo
  selectedFormat : Option FormatDescriptor
  progressWidth : Width
  progressText : String
  speedText : String
  sizeText : String
  btnDisabled : Bool
  btnLabel : String
  btnAction : BtnAction
  progressVisible : Bool
  btnVisible : Bool
  formatGrid : List FormatDescriptor
  domSelectedFormat : Option Nat
  formatSectionVisible : Bool
deriving DecidableEq

/-- The page state right after construction. -/
def initState : DState where
  currentDownloadId := none
  currentVideoInfo := none
  selectedFormat := none
  progressWidth := Width.pct "0%"
  progressText := ""
  speedText := ""
  sizeText := ""
  btnDisabled := false
  btnLabel := downloadNowLabel
  btnAction := BtnAction.runStartDownload
  progressVisible := false
  btnVisible := false
  formatGrid := []
  domSelectedFormat := none
  formatSectionVisible := false

/-! ## Single-Job Controller -/

/-- Result of one run of the single-job `checkProgress` closure: the
updated client state, the delay of the `setTimeout` it issues (if any),
the payloads its status branches handled (delivered to the
per-iteration callback), the messages passed to `showError`, and the
`(title, format name)` pairs passed to `addToDownloadHistory`. -/
structure StepResult where
  state : DState
  next : Option Nat
  delivered : List StatusPayload
  userErrors : List String
  historyAdds : List (String × String)
deriving DecidableEq

/-- The body of `checkProgress` in `monitorDownloadProgress`
(src/static/js/script.js lines 195-232).  The `fail` case is the
`catch` block: log a diagnostic only and retry in 2000 ms.  In every
reachable monitoring state `currentVideoInfo` and `selectedFormat` are
present (both are required by `startDownload`), so the `getD` defaults
in the `finished` branch are never exercised there. -/
def checkProgress (st : DState) (r : FetchResult) : StepResult :=
  match r with
  | .fail => ⟨st, some 2000, [], [], []⟩
  | .ok s =>
    if s.status = "downloading" then
      { state := { st with
          progressWidth := Width.fromPercentField s.percent
          progressText := jsText s.percent
          speedText := jsText s.speed
          sizeText := jsText s.downloaded ++ " / " ++ jsText s.total_size }
        next := some 1000
        delivered := [s]
        userErrors := []
        historyAdds := [] }
    else if s.status = "finished" then
      { state := { st with
          progressWidth := Width.pct "100%"
          progressText := "100%"
          speedText := "Completed"
          btnDisabled := false
          btnLabel := saveFileLabel
          btnAction := BtnAction.runDownloadFile }
        next := none
        delivered := [s]
        userErrors := []
        historyAdds := [((st.currentVideoInfo.map VideoInfo.title).getD "",
                         (st.selectedFormat.map FormatDescriptor.name).getD "")] }
    else if s.status = "error" then
      { state := { st with btnDisabled := false, btnLabel := downloadNowLabel }
        next := none
        delivered := [s]
        userErrors := [jsText s.error]
        historyAdds := [] }
    else
      ⟨st, none, [], [], []⟩

/-- Observable trace of a polling loop run against a schedule of fetch
outcomes (one outcome per issued fetch, in order). -/
structure PollTrace where
  finalState : DState
  delivered : List StatusPayload
  userErrors : List String
  delays : List Nat
  fetches : Nat
deriving DecidableEq

/-- Drive `checkProgress` over a schedule of fetch outcomes: each
issued fetch consumes one outcome; a `setTimeout` with delay `d`
records `d` and issues the next fetch; a branch that sets no timer
stops the loop (any unconsumed outcomes correspond to fetches that are
never issued). -/
def runPoll (st : DState) : List FetchResult → PollTrace
  | [] => ⟨st, [], [], [], 0⟩
  | r :: rs =>
    let o := checkProgress st r
    match o.next with
    | none => ⟨o.state, o.delivered, o.userErrors, [], 1⟩
    | some d =>
      let t := runPoll o.state rs
      ⟨t.finalState, o.delivered ++ t.delivered, o.userErrors ++ t.userErrors,
        d :: t.delays, t.fetches + 1⟩

/-- `resetDownloadUI` (lines 266-271). -/
def resetDownloadUI (st : DState) : DState :=
  { st with progressVisible := false, btnVisible := false,
            progressWidth := Width.pct "0%", currentDownloadId := none }

/-- Result of `downloadFile`: updated state, the `a.download` filename
if a client-local save was triggered, and `showError` messages. -/
structure SaveResult where
  state : DState
  savedAs : Option String
  userErrors : List String
deriving DecidableEq

/-- `downloadFile` (lines 237-264).  `fetchOk` is `response.ok` of the
artifact request; a false value throws into the `catch` block.  In
every reachable ready-to-save state `currentVideoInfo` and
`selectedFormat` are present, so the `getD` defaults are never
exercised there. -/
def downloadFile (st : DState) (fetchOk : Bool) : SaveResult :=
  match st.currentDownloadId with
  | none => ⟨st, none, []⟩
  | some _ =>
    if fetchOk then
      ⟨resetDownloadUI st,
        some ((st.currentVideoInfo.map VideoInfo.title).getD "" ++ "." ++
              (st.selectedFormat.map FormatDescriptor.ext).getD ""), []⟩
    else
      ⟨st, none, ["Failed to download file"]⟩

/-- The success path of `fetchVideoInfo` (lines 82-84) together with
`displayFormats` (lines 110-145): store the response, rebuild the
format grid (`formatGrid.innerHTML = ''` discards every rendered item
and hence any `.selected` highlight), and show the section.
`this.selectedFormat` is not written anywhere on this path. -/
def fetchVideoInfoSuccess (st : DState) (data : VideoInfo) : DState :=
  { st with currentVideoInfo := some data,
            formatGrid := data.formats,
            domSelectedFormat := none,
            formatSectionVisible := true }

/-- The click handler installed on format item `i` by `displayFormats`
(lines 124-139): move the `.selected` class to item `i`, store the
clicked descriptor in `this.selectedFormat`, and reveal the progress
section and download button. -/
def selectFormat (st : DState) (i : Nat) : DState :=
  match st.formatGrid[i]? with
  | some f => { st with domSelectedFormat := some i, selectedFormat := some f,
                        progressVisible := true, btnVisible := true }
  | none => st

/-- Observable outcome of `startDownload` (lines 147-184) up to the
backend call: either the local validation error or the body of the
`/start_download` request. -/
inductive StartOutcome where
  | validationError (target msg : String)
  | request (url format_id title : String)
deriving DecidableEq

/-- The guard and request construction of `startDownload` (lines
147-168).  `urlValue` is the raw text of the `urlInput` field; the
request body carries its trimmed form, the selected `format_id` and the
fetched title. -/
def startDownload (st : DState) (urlValue : String) : StartOutcome :=
  match st.selectedFormat, st.currentVideoInfo with
  | some f, some v => StartOutcome.request (jsTrimString urlValue) f.format_id v.title
  | _, _ => StartOutcome.validationError "urlError" "Please select a format first"

/-! ## Batch Controller -/

/-- JavaScript `Math.round` on an exact rational: half rounds up
(towards positive infinity). -/
def jsRound (x : ℚ) : ℤ := ⌊x + 1 / 2⌋

/-- The numbers written into `batchProgress.innerHTML` by the
`processing` branch. -/
structure BatchDisplay where
  completed : Nat
  total : Nat
  percent : ℤ
deriving DecidableEq

/-- What one batch poll iteration leaves rendered. -/
inductive BatchRender where
  | progressBar (d : BatchDisplay)
  | finishedMsg (total : Nat)
deriving DecidableEq

/-- The body of `checkProgress` in `monitorBatchProgress` (lines
317-347), as `(rendered update, setTimeout delay)`.  `total` is
`urls.length`, fixed at submission time (line 307).  Division is
modelled over exact rationals; `status.completed || 0` is the
`getD 0`. -/
def batchCheckProgress (total : Nat) (r : FetchResult) : Option BatchRender × Option Nat :=
  match r with
  | .fail => (none, some 2000)
  | .ok s =>
    if s.status = "processing" then
      let completed := s.completed.getD 0
      let progress := jsRound (((completed : ℚ) / (total : ℚ)) * 100)
      (some (BatchRender.progressBar ⟨completed, total, progress⟩), some 2000)
    else if s.status = "finished" then
      (some (BatchRender.finishedMsg total), none)
    else
      (none, none)

/-- The spec wording for the batch percentage:
`round(completed/total * 100)`. -/
def specRound (c t : Nat) : ℤ := ⌊((c : ℚ) / (t : ℚ)) * 100 + 1 / 2⌋

/-! ## History Store -/

/-- One `.history-item` div, given by the text content of its two
spans.  HTML parsing is not modelled: `span0` holds the title text
placed inside the `<strong>` element, `span1` the text
`format • time`. -/
structure RenderedItem where
  span0 : List Char
  span1 : List Char
deriving DecidableEq

/-- A `{title, format, time}` record as persisted under the
`downloadHistory` key of `localStorage`. -/
structure HistoryEntry where
  title : List Char
  format : List Char
  time : List Char
deriving DecidableEq

def bulletChar : Char := '•'

/-- The separator written between format and time: the string " • "
(lines 362 and 384). -/
def sepText : List Char := [' ', bulletChar, ' ']

/-- The character list of the literal "<strong>". -/
def strongOpenTag : List Char := ['<', 's', 't', 'r', 'o', 'n', 'g', '>']

/-- The character list of the literal "</strong>". -/
def strongCloseTag : List Char := ['<', '/', 's', 't', 'r', 'o', 'n', 'g', '>']

/-- The title clean-up in `saveDownloadHistory` (line 395):
`.replace('<strong>', '').replace('</strong>', '')`. -/
def stripTags (s : List Char) : List Char :=
  replaceFirst strongCloseTag [] (replaceFirst strongOpenTag [] s)

/-- Build the rendered item of `addToDownloadHistory` (lines 360-363). -/
def renderHistoryItem (title format time : List Char) : RenderedItem :=
  ⟨title, format ++ sepText ++ time⟩

/-- How `saveDownloadHistory` (lines 390-399) reads one rendered item
back into a record: strip the (first) strong tags from the title text,
split the second span on the bullet and trim the first two pieces. -/
def parseItem (it : RenderedItem) : HistoryEntry :=
  let segs := splitOnChar bulletChar it.span1
  { title := stripTags it.span0,
    format := trimText (segs.headD []),
    time := trimText (segs.getD 1 []) }

/-- `saveDownloadHistory` (lines 390-402): serialize every rendered
history item, in document order (newest first), into the stored record
list, overwriting the previous value. -/
def saveDownloadHistory (dom : List RenderedItem) : List HistoryEntry :=
  dom.map parseItem

/-- The history DOM list together with the `localStorage` contents. -/
structure HistoryState where
  dom : List RenderedItem
  storage : List HistoryEntry
deriving DecidableEq

/-- `addToDownloadHistory` (lines 352-373): insert the rendered entry
at the head (`insertBefore(..., firstChild)`), remove the last rendered
item when more than 10 remain, then persist.  `time` is the
`toLocaleTimeString()` value, supplied as an input. -/
def addToDownloadHistory (st : HistoryState) (title format time : List Char) : HistoryState :=
  let dom1 := renderHistoryItem title format time :: st.dom
  let dom2 := if dom1.length > 10 then dom1.dropLast else dom1
  ⟨dom2, saveDownloadHistory dom2⟩

/-- `loadDownloadHistory` (lines 375-388): render each stored record,
appending in stored order. -/
def loadDownloadHistory (storage : List HistoryEntry) : List RenderedItem :=
  storage.map fun e => ⟨e.title, e.format ++ sepText ++ e.time⟩

/-- A title is faithful to this embedding of the DOM text only when it
does not contain the literal tag substrings that `saveDownloadHistory`
strips (real HTML parsing is outside the model). -/
def cleanTitle (t : List Char) : Prop :=
  occursIn strongOpenTag t = false ∧ occursIn strongCloseTag t = false

/-- A stored record that the render/parse round trip preserves:
tag-free title, bullet-free and trim-stable format and time. -/
def wfRecord (r : HistoryEntry) : Prop :=
  cleanTitle r.title ∧
  bulletChar ∉ r.format ∧ trimText r.format = r.format ∧
  bulletChar ∉ r.time ∧ trimText r.time = r.time

/-- The rendered item of one appended record. -/
def renderEntryRecord (e : HistoryEntry) : RenderedItem :=
  renderHistoryItem e.title e.format e.time

/-- Folding a sequence of appends from a starting state. -/
def appendAll (st : HistoryState) (es : List HistoryEntry) : HistoryState :=
  es.foldl (fun s e => addToDownloadHistory s e.title e.format e.time) st

def emptyHistory : HistoryState := ⟨[], []⟩

/-! ## Concrete payloads and states used by witnesses and counterexamples -/

def finishedPayload : StatusPayload := { status := "finished" }

def pendingPayload : StatusPayload := { status := "pending" }

def downloadingPayload : StatusPayload :=
  { status := "downloading", percent := some "37.5%", speed := some "1.2MiB/s",
    downloaded := some "3.0MiB", total_size := some "8.0MiB" }

def errorPayload : StatusPayload := { status := "error", error := some "boom" }

def processingPayload3 : StatusPayload := { status := "processing", completed := some 3 }

def processingPayloadMissing : StatusPayload := { status := "processing" }

def fmtA : FormatDescriptor := ⟨"22", "720p MP4", "video", "mp4"⟩

def fmtB : FormatDescriptor := ⟨"140", "Audio M4A", "audio", "m4a"⟩

def vidA : VideoInfo := ⟨"First Video", 120, "thumbA", [fmtA]⟩

def vidB : VideoInfo := ⟨"Second Video", 95, "thumbB", [fmtB]⟩

/-- A state mid-download: job created from `vidA` with `fmtA`. -/
def readyState : DState :=
  { initState with currentDownloadId := some "job-1",
                   currentVideoInfo := some vidA,
                   selectedFormat := some fmtA,
                   formatGrid := [fmtA],
                   domSelectedFormat := some 0,
                   progressVisible := true, btnVisible := true }

/-- A state with a stale selection from an earlier metadata result. -/
def staleSelState : DState :=
  { initState with currentVideoInfo := some vidA,
                   selectedFormat := some fmtA,
                   formatGrid := [fmtA],
                   domSelectedFormat := some 0 }

/-- A small concrete history entry, parametrised to make 11 of them. -/
def sampleEntry (c : Char) : HistoryEntry := ⟨['T', c], ['F', c], ['1', c]⟩

/-- Eleven concrete history entries for the history-store witness. -/
def sampleEntries : List HistoryEntry :=
  [sampleEntry 'a', sampleEntry 'b', sampleEntry 'c', sampleEntry 'd',
   sampleEntry 'e', sampleEntry 'f', sampleEntry 'g', sampleEntry 'h',
   sampleEntry 'i', sampleEntry 'j', sampleEntry 'k']

/-! ## Claim theorems: Job Poller (single job) -/

/-- C1: if the single-job status fetch returns `downloading` N times and
then `finished`, the per-iteration callback handles exactly those N+1
statuses in that order, and no further status fetch is issued after the
`finished` status is observed: exactly N+1 fetches resolve, whatever
outcomes would follow. -/
theorem c1_downloading_then_finished_callbacks
    (st : DState) (ss : List StatusPayload) (fin : StatusPayload)
    (extra : List FetchResult)
    (hss : ∀ s ∈ ss, s.status = "downloading") (hfin : fin.status = "finished") :
    (runPoll st (ss.map FetchResult.ok ++ FetchResult.ok fin :: extra)).delivered
        = ss ++ [fin]
    ∧ (runPoll st (ss.map FetchResult.ok ++ FetchResult.ok fin :: extra)).fetches
        = ss.length + 1 := by
  revert hss
  induction ss generalizing st with
  | nil =>
    intro _
    simp [runPoll, checkProgress, hfin]
  | cons s ss ih =>
    intro hss
    have hs : s.status = "downloading" := hss s (List.mem_cons_self s ss)
    have hrest : ∀ x ∈ ss, x.status = "downloading" :=
      fun x hx => hss x (List.mem_cons_of_mem s hx)
    simp only [List.map_cons, List.cons_append]
    simp [runPoll, checkProgress, hs]
    constructor
    · rw [(ih _ hrest).1]
    · rw [(ih _ hrest).2]

/-- C1 witness: one downloading poll, then finished, with one further
outcome available that is never fetched. -/
theorem c1_downloading_then_finished_callbacks_witness :
    (runPoll initState (List.map FetchResult.ok [downloadingPayload] ++
        FetchResult.ok finishedPayload :: [FetchResult.ok downloadingPayload])).delivered
      = [downloadingPayload] ++ [finishedPayload]
    ∧ (runPoll initState (List.map FetchResult.ok [downloadingPayload] ++
        FetchResult.ok finishedPayload :: [FetchResult.ok downloadingPayload])).fetches
      = [downloadingPayload].length + 1 :=
  c1_downloading_then_finished_callbacks initState [downloadingPayload] finishedPayload
    [FetchResult.ok downloadingPayload]
    (fun s hs => by rw [List.mem_singleton] at hs; subst hs; rfl) rfl

/-- C2: if the first M status fetches fail at the transport level and the
next succeeds with `finished`, the callback handles exactly one status
(the finished one), no failure is surfaced to the callback or the user,
each failure reschedules after the 2000 ms retry interval, and polling
does not stop before the success (all M+1 fetches resolve).  The batch
poll loop's catch block likewise only reschedules after 2000 ms. -/
theorem c2_transport_failures_then_finished
    (st : DState) (M : Nat) (fin : StatusPayload) (extra : List FetchResult)
    (hfin : fin.status = "finished") :
    ((runPoll st (List.replicate M FetchResult.fail ++ FetchResult.ok fin :: extra)).delivered
        = [fin]
    ∧ (runPoll st (List.replicate M FetchResult.fail ++ FetchResult.ok fin :: extra)).userErrors
        = []
    ∧ (runPoll st (List.replicate M FetchResult.fail ++ FetchResult.ok fin :: extra)).delays
        = List.replicate M 2000
    ∧ (runPoll st (List.replicate M FetchResult.fail ++ FetchResult.ok fin :: extra)).fetches
        = M + 1)
    ∧ (∀ t : Nat, batchCheckProgress t FetchResult.fail = (none, some 2000)) := by
  constructor
  · induction M generalizing st with
    | zero => simp [runPoll, checkProgress, hfin]
    | succ M ih =>
      simp only [List.replicate_succ, List.cons_append]
      simp [runPoll, checkProgress]
      refine ⟨(ih st).1, (ih st).2.1, ?_, ?_⟩
      · rw [(ih st).2.2.1]
      · rw [(ih st).2.2.2]
  · intro t; rfl

/-- C2 witness: two transport failures, then a finished response. -/
theorem c2_transport_failures_then_finished_witness :
    ((runPoll initState (List.replicate 2 FetchResult.fail ++
        FetchResult.ok finishedPayload :: [])).delivered = [finishedPayload]
    ∧ (runPoll initState (List.replicate 2 FetchResult.fail ++
        FetchResult.ok finishedPayload :: [])).userErrors = []
    ∧ (runPoll initState (List.replicate 2 FetchResult.fail ++
        FetchResult.ok finishedPayload :: [])).delays = List.replicate 2 2000
    ∧ (runPoll initState (List.replicate 2 FetchResult.fail ++
        FetchResult.ok finishedPayload :: [])).fetches = 2 + 1)
    ∧ (∀ t : Nat, batchCheckProgress t FetchResult.fail = (none, some 2000)) :=
  c2_transport_failures_then_finished initState 2 finishedPayload [] rfl

/-- C3 counterexample: a fetch that succeeds with status `pending` is not
delivered to the callback and schedules no further fetch, refuting the
claim that `pending` is delivered and rescheduled after 1000 ms. -/
theorem c3_pending_not_handled_counterexample :
    (checkProgress initState (FetchResult.ok pendingPayload)).delivered = []
    ∧ (checkProgress initState (FetchResult.ok pendingPayload)).next = none
    ∧ ¬ ((checkProgress initState (FetchResult.ok pendingPayload)).delivered
          = [pendingPayload]
      ∧ (checkProgress initState (FetchResult.ok pendingPayload)).next = some 1000) := by
  decide

/-- C3 (amended): the only non-terminal status the single-job loop handles
is `downloading`, which is delivered to the callback and rescheduled after
the 1000 ms steady interval; a successful fetch with status `pending`
is neither delivered nor rescheduled — the loop halts silently. -/
theorem c3_single_poll_nonterminal (st : DState) (s : StatusPayload) :
    (s.status = "downloading" →
      (checkProgress st (FetchResult.ok s)).delivered = [s]
      ∧ (checkProgress st (FetchResult.ok s)).next = some 1000)
    ∧ (s.status = "pending" →
      (checkProgress st (FetchResult.ok s)).delivered = []
      ∧ (checkProgress st (FetchResult.ok s)).next = none) := by
  constructor <;> intro h <;> simp [checkProgress, h]

/-- C3 witness: the downloading branch reschedules, the pending branch
halts, at concrete payloads. -/
theorem c3_single_poll_nonterminal_witness :
    ((checkProgress initState (FetchResult.ok downloadingPayload)).delivered
        = [downloadingPayload]
    ∧ (checkProgress initState (FetchResult.ok downloadingPayload)).next = some 1000)
    ∧ ((checkProgress initState (FetchResult.ok pendingPayload)).delivered = []
    ∧ (checkProgress initState (FetchResult.ok pendingPayload)).next = none) :=
  ⟨(c3_single_poll_nonterminal initState downloadingPayload).1 rfl,
   (c3_single_poll_nonterminal initState pendingPayload).2 rfl⟩

/-- C4 (amended): when the single-job poll observes terminal status
`error`, the error message is surfaced via showError, polling stops, the
button returns to the retry label, and the format selection and video
metadata are retained unchanged; the job identifier `currentDownloadId`
is also retained — this branch does not discard it. -/
theorem c4_error_branch_state (st : DState) (s : StatusPayload)
    (h : s.status = "error") :
    (checkProgress st (FetchResult.ok s)).userErrors = [jsText s.error]
    ∧ (checkProgress st (FetchResult.ok s)).next = none
    ∧ (checkProgress st (FetchResult.ok s)).state.selectedFormat = st.selectedFormat
    ∧ (checkProgress st (FetchResult.ok s)).state.currentVideoInfo = st.currentVideoInfo
    ∧ (checkProgress st (FetchResult.ok s)).state.currentDownloadId = st.currentDownloadId
    ∧ (checkProgress st (FetchResult.ok s)).state.btnDisabled = false
    ∧ (checkProgress st (FetchResult.ok s)).state.btnLabel = downloadNowLabel := by
  simp [checkProgress, h]

/-- C4 witness: the error branch at a concrete mid-download state. -/
theorem c4_error_branch_state_witness :
    (checkProgress readyState (FetchResult.ok errorPayload)).userErrors
        = [jsText errorPayload.error]
    ∧ (checkProgress readyState (FetchResult.ok errorPayload)).next = none
    ∧ (checkProgress readyState (FetchResult.ok errorPayload)).state.selectedFormat
        = readyState.selectedFormat
    ∧ (checkProgress readyState (FetchResult.ok errorPayload)).state.currentVideoInfo
        = readyState.currentVideoInfo
    ∧ (checkProgress readyState (FetchResult.ok errorPayload)).state.currentDownloadId
        = readyState.currentDownloadId
    ∧ (checkProgress readyState (FetchResult.ok errorPayload)).state.btnDisabled = false
    ∧ (checkProgress readyState (FetchResult.ok errorPayload)).state.btnLabel
        = downloadNowLabel :=
  c4_error_branch_state readyState errorPayload rfl

/-- C4 counterexample: after an `error` status in a state holding job
identifier "job-1", `currentDownloadId` still holds "job-1" — the claim
that the job identifier is discarded fails on the code. -/
theorem c4_error_keeps_job_id_counterexample :
    (checkProgress readyState (FetchResult.ok errorPayload)).state.currentDownloadId
        = some "job-1"
    ∧ ¬ ((checkProgress readyState (FetchResult.ok errorPayload)).state.currentDownloadId
        = none) := by
  decide

/-! ## Claim theorems: Single-Job Controller -/

/-- C5 (amended): a successful metadata fetch replaces the stored
VideoMetadata and the rendered format list wholesale and clears the DOM
selection highlight, but `this.selectedFormat` — the active selection
consulted by startDownload — is left unchanged, so a stale descriptor
from an earlier metadata result can remain selected. -/
theorem c5_fetch_replaces_metadata_keeps_selection (st : DState) (data : VideoInfo) :
    (fetchVideoInfoSuccess st data).currentVideoInfo = some data
    ∧ (fetchVideoInfoSuccess st data).formatGrid = data.formats
    ∧ (fetchVideoInfoSuccess st data).domSelectedFormat = none
    ∧ (fetchVideoInfoSuccess st data).selectedFormat = st.selectedFormat :=
  ⟨rfl, rfl, rfl, rfl⟩

/-- C5 counterexample: fetching vidB while fmtA (from vidA's result) is
selected leaves fmtA selected even though it is not among vidB's
formats — refuting that every prior active selection is cleared. -/
theorem c5_stale_selection_counterexample :
    (fetchVideoInfoSuccess staleSelState vidB).selectedFormat = some fmtA
    ∧ fmtA ∉ vidB.formats := by
  decide

/-- C6: startDownload issues no backend request and produces the local
validation error whenever no format is selected or no metadata is
present; the request is built exactly when both are present. -/
theorem c6_start_download_guard (st : DState) (u : String) :
    ((st.selectedFormat = none ∨ st.currentVideoInfo = none) →
      startDownload st u
        = StartOutcome.validationError "urlError" "Please select a format first")
    ∧ (∀ f v, st.selectedFormat = some f → st.currentVideoInfo = some v →
      startDownload st u
        = StartOutcome.request (jsTrimString u) f.format_id v.title) := by
  constructor
  · intro h
    rcases hsel : st.selectedFormat with _ | f <;>
      rcases hv : st.currentVideoInfo with _ | v <;>
        simp_all [startDownload]
  · intro f v hf hv
    simp [startDownload, hf, hv]

/-- C6 witness: empty state yields the validation error, a fully
populated state yields the request. -/
theorem c6_start_download_guard_witness :
    startDownload initState "https://example.com/v"
        = StartOutcome.validationError "urlError" "Please select a format first"
    ∧ startDownload readyState " https://example.com/v "
        = StartOutcome.request (jsTrimString " https://example.com/v ")
            fmtA.format_id vidA.title :=
  ⟨(c6_start_download_guard initState "https://example.com/v").1 (Or.inl rfl),
   (c6_start_download_guard readyState " https://example.com/v ").2 fmtA vidA rfl rfl⟩

/-- C7: on successful artifact retrieval, the saved filename is the job's
title, a dot, and the selected format's extension, and the controller
resets to idle (job handle discarded, progress width zeroed, progress and
button affordances hidden); on failed retrieval the error is surfaced and
the state — including the job handle — is unchanged, so retrieval can be
retried. -/
theorem c7_download_file (st : DState) (d : String) (v : VideoInfo)
    (f : FormatDescriptor) (hid : st.currentDownloadId = some d)
    (hv : st.currentVideoInfo = some v) (hf : st.selectedFormat = some f) :
    ((downloadFile st true).savedAs = some (v.title ++ "." ++ f.ext)
    ∧ (downloadFile st true).state = resetDownloadUI st
    ∧ (downloadFile st true).state.currentDownloadId = none
    ∧ (downloadFile st true).state.progressWidth = Width.pct "0%"
    ∧ (downloadFile st true).state.progressVisible = false
    ∧ (downloadFile st true).state.btnVisible = false
    ∧ (downloadFile st true).userErrors = [])
    ∧ ((downloadFile st false).state = st
    ∧ (downloadFile st false).savedAs = none
    ∧ (downloadFile st false).userErrors = ["Failed to download file"]) := by
  simp [downloadFile, resetDownloadUI, hid, hv, hf]

/-- C7 witness: retrieval in the concrete ready state saves
"First Video.mp4" and resets; a failed retrieval leaves the state
untouched. -/
theorem c7_download_file_witness :
    ((downloadFile readyState true).savedAs = some (vidA.title ++ "." ++ fmtA.ext)
    ∧ (downloadFile readyState true).state = resetDownloadUI readyState
    ∧ (downloadFile readyState true).state.currentDownloadId = none
    ∧ (downloadFile readyState true).state.progressWidth = Width.pct "0%"
    ∧ (downloadFile readyState true).state.progressVisible = false
    ∧ (downloadFile readyState true).state.btnVisible = false
    ∧ (downloadFile readyState true).userErrors = [])
    ∧ ((downloadFile readyState false).state = readyState
    ∧ (downloadFile readyState false).savedAs = none
    ∧ (downloadFile readyState false).userErrors = ["Failed to download file"]) :=
  c7_download_file readyState "job-1" vidA fmtA rfl rfl rfl

/-! ## Claim theorems: Batch Controller -/

/-- C9: for a batch `processing` status with completed count c and
submission-time total t > 0, the rendered percentage is
round(c/t*100); a missing completed field is treated as 0; and for
completed = 3, total = 7 the percentage is 43. -/
theorem c9_batch_percent :
    (∀ (t c : Nat) (s : StatusPayload), 0 < t → s.status = "processing" →
      s.completed = some c →
      (batchCheckProgress t (FetchResult.ok s)).1
        = some (BatchRender.progressBar ⟨c, t, specRound c t⟩))
    ∧ (∀ (t : Nat) (s : StatusPayload), 0 < t → s.status = "processing" →
      s.completed = none →
      (batchCheckProgress t (FetchResult.ok s)).1
        = some (BatchRender.progressBar ⟨0, t, specRound 0 t⟩))
    ∧ specRound 3 7 = 43 := by
  refine ⟨?_, ?_, ?_⟩
  · intro t c s ht hs hc
    simp [batchCheckProgress, hs, hc, jsRound, specRound]
  · intro t s ht hs hc
    simp [batchCheckProgress, hs, hc, jsRound, specRound]
  · rw [specRound, Int.floor_eq_iff]
    norm_num

/-- C9 witness: completed 3 of total 7 renders 43 percent; a payload with
no completed field renders 0 of 5. -/
theorem c9_batch_percent_witness :
    (batchCheckProgress 7 (FetchResult.ok processingPayload3)).1
        = some (BatchRender.progressBar ⟨3, 7, specRound 3 7⟩)
    ∧ (batchCheckProgress 5 (FetchResult.ok processingPayloadMissing)).1
        = some (BatchRender.progressBar ⟨0, 5, specRound 0 5⟩) :=
  ⟨c9_batch_percent.1 7 3 processingPayload3 (by decide) rfl rfl,
   c9_batch_percent.2.1 5 processingPayloadMissing (by decide) rfl rfl⟩

/-- C10: a successfully fetched batch status that is neither `processing`
nor `finished` produces no rendered update and schedules no further
fetch — the batch loop halts silently with nothing surfaced. -/
theorem c10_batch_unknown_status_halts (t : Nat) (s : StatusPayload)
    (h1 : s.status ≠ "processing") (h2 : s.status ≠ "finished") :
    batchCheckProgress t (FetchResult.ok s) = (none, none) := by
  simp [batchCheckProgress, h1, h2]

/-- C10 witness: a batch `error` status halts the loop with no render. -/
theorem c10_batch_unknown_status_halts_witness :
    batchCheckProgress 4 (FetchResult.ok errorPayload) = (none, none) :=
  c10_batch_unknown_status_halts 4 errorPayload (by decide) (by decide)

/-! ## List and text lemmas for the History Store -/

theorem dropWhile_head_not {α : Type _} (p : α → Bool) :
    ∀ (l : List α) (a : α), (l.dropWhile p).head? = some a → p a = false := by
  intro l
  induction l with
  | nil => intro a h; simp [List.dropWhile] at h
  | cons x xs ih =>
    intro a h
    rw [List.dropWhile_cons] at h
    by_cases hp : p x
    · rw [if_pos hp] at h
      exact ih a h
    · rw [if_neg hp] at h
      simp at h
      subst h
      simpa using hp

theorem dropWhile_dropWhile_self {α : Type _} (p : α → Bool) (l : List α) :
    (l.dropWhile p).dropWhile p = l.dropWhile p := by
  rcases hE : l.dropWhile p with _ | ⟨a, t⟩
  · rfl
  · have ha : p a = false := dropWhile_head_not p l a (by rw [hE]; rfl)
    rw [List.dropWhile_cons, if_neg (by simp [ha])]

theorem getLast?_dropWhile_of_ne_nil {α : Type _} (p : α → Bool) :
    ∀ (l : List α), l.dropWhile p ≠ [] → (l.dropWhile p).getLast? = l.getLast? := by
  intro l
  induction l with
  | nil => intro h; simp [List.dropWhile] at h
  | cons x xs ih =>
    intro h
    rw [List.dropWhile_cons] at h ⊢
    by_cases hp : p x
    · rw [if_pos hp] at h ⊢
      rcases xs with _ | ⟨b, bs⟩
      · simp [List.dropWhile] at h
      · rw [List.getLast?_cons_cons]
        exact ih h
    · rw [if_neg hp]

theorem trimText_eq_of_ends (s : List Char)
    (h1 : ∀ b, s.head? = some b → wsChar b = false)
    (h2 : ∀ b, s.getLast? = some b → wsChar b = false) :
    trimText s = s := by
  have hfront : s.dropWhile wsChar = s := by
    rcases s with _ | ⟨a, t⟩
    · rfl
    · rw [List.dropWhile_cons, if_neg (by simp [h1 a rfl])]
  unfold trimText
  rw [hfront]
  have hback : s.reverse.dropWhile wsChar = s.reverse := by
    rcases hE : s.reverse with _ | ⟨a, t⟩
    · rfl
    · have hlast : s.getLast? = some a := by
        rw [← List.head?_reverse, hE]; rfl
      rw [List.dropWhile_cons, if_neg (by simp [h2 a hlast])]
  rw [hback, List.reverse_reverse]

theorem trimText_idem (s : List Char) : trimText (trimText s) = trimText s := by
  apply trimText_eq_of_ends
  · intro b hb
    unfold trimText at hb
    rw [List.head?_reverse] at hb
    have hne : (s.dropWhile wsChar).reverse.dropWhile wsChar ≠ [] := by
      intro h0
      rw [h0] at hb
      simp at hb
    rw [getLast?_dropWhile_of_ne_nil wsChar _ hne, List.getLast?_reverse] at hb
    exact dropWhile_head_not wsChar s b hb
  · intro b hb
    unfold trimText at hb
    rw [List.getLast?_reverse] at hb
    exact dropWhile_head_not wsChar _ b hb

theorem trimText_cons_ws (s : List Char) (a : Char) (ha : wsChar a = true) :
    trimText (a :: s) = trimText s := by
  unfold trimText
  rw [List.dropWhile_cons, if_pos (by simp [ha])]

theorem trimText_append_ws (s : List Char) (a : Char) (ha : wsChar a = true) :
    trimText (s ++ [a]) = trimText s := by
  unfold trimText
  rw [List.dropWhile_append]
  rcases hE : s.dropWhile wsChar with _ | ⟨x, t⟩
  · simp [List.dropWhile_cons, ha, List.dropWhile_nil]
  · simp only [List.isEmpty_cons, if_false, Bool.false_eq_true]
    rw [List.reverse_append]
    simp only [List.reverse_cons, List.reverse_nil, List.nil_append, List.singleton_append]
    rw [List.dropWhile_cons, if_pos (by simp [ha])]

theorem mem_of_mem_trimText (s : List Char) (a : Char) (h : a ∈ trimText s) : a ∈ s := by
  unfold trimText at h
  rw [List.mem_reverse] at h
  have h2 := (List.dropWhile_sublist wsChar).subset h
  rw [List.mem_reverse] at h2
  exact (List.dropWhile_sublist wsChar).subset h2

theorem splitOnChar_ne_nil (c : Char) (s : List Char) : splitOnChar c s ≠ [] := by
  induction s with
  | nil => simp [splitOnChar]
  | cons x xs ih =>
    unfold splitOnChar
    by_cases h : x = c
    · simp [h]
    · rw [if_neg h]
      rcases hE : splitOnChar c xs with _ | ⟨s0, ss⟩
      · exact absurd hE ih
      · simp

theorem mem_splitOnChar_not_mem (c : Char) (s : List Char) :
    ∀ seg ∈ splitOnChar c s, c ∉ seg := by
  induction s with
  | nil =>
    intro seg hseg
    simp [splitOnChar] at hseg
    subst hseg
    simp
  | cons x xs ih =>
    intro seg hseg
    unfold splitOnChar at hseg
    by_cases h : x = c
    · rw [if_pos h] at hseg
      rcases List.mem_cons.1 hseg with h0 | h0
      · subst h0; simp
      · exact ih seg h0
    · rw [if_neg h] at hseg
      rcases hE : splitOnChar c xs with _ | ⟨s0, ss⟩
      · exact absurd hE (splitOnChar_ne_nil c xs)
      · rw [hE] at hseg
        rcases List.mem_cons.1 hseg with h0 | h0
        · subst h0
          intro hc
          rcases List.mem_cons.1 hc with h1 | h1
          · exact h h1.symm
          · exact ih s0 (by rw [hE]; exact List.mem_cons_self s0 ss) h1
        · exact ih seg (by rw [hE]; exact List.mem_cons_of_mem s0 h0)

theorem splitOnChar_of_not_mem (c : Char) (s : List Char) (h : c ∉ s) :
    splitOnChar c s = [s] := by
  induction s with
  | nil => rfl
  | cons x xs ih =>
    have hx : ¬ x = c := fun he => h (by rw [he]; exact List.mem_cons_self c xs)
    have hxs : c ∉ xs := fun hm => h (List.mem_cons_of_mem x hm)
    unfold splitOnChar
    rw [if_neg hx, ih hxs]

theorem splitOnChar_append_not_mem (c : Char) (a b : List Char) (h : c ∉ a) :
    splitOnChar c (a ++ c :: b) = a :: splitOnChar c b := by
  induction a with
  | nil => simp [splitOnChar]
  | cons x a2 ih =>
    have hx : ¬ x = c := fun he => h (by rw [he]; exact List.mem_cons_self c a2)
    have ha2 : c ∉ a2 := fun hm => h (List.mem_cons_of_mem x hm)
    rw [List.cons_append]
    conv_lhs => rw [splitOnChar]
    rw [if_neg hx, ih ha2]

theorem replaceFirst_no_occur (pat repl : List Char) :
    ∀ (s : List Char), occursIn pat s = false → replaceFirst pat repl s = s := by
  intro s
  induction s with
  | nil =>
    intro h
    unfold occursIn at h
    unfold replaceFirst
    rw [if_neg (by simp [h])]
  | cons c cs ih =>
    intro h
    unfold occursIn at h
    rw [Bool.or_eq_false_iff] at h
    unfold replaceFirst
    rw [if_neg (by simp [h.1]), ih h.2]

theorem stripTags_clean (t : List Char) (h : cleanTitle t) : stripTags t = t := by
  unfold stripTags
  rw [replaceFirst_no_occur _ _ t h.1, replaceFirst_no_occur _ _ t h.2]

theorem not_mem_headD (c : Char) (l : List (List Char))
    (h : ∀ seg ∈ l, c ∉ seg) : c ∉ l.headD [] := by
  rcases l with _ | ⟨x, xs⟩
  · simp
  · exact h x (List.mem_cons_self x xs)

theorem not_mem_getD (c : Char) (l : List (List Char)) (i : Nat)
    (h : ∀ seg ∈ l, c ∉ seg) : c ∉ l.getD i [] := by
  rcases hE : l[i]? with _ | seg
  · simp [List.getD_eq_getElem?_getD, hE]
  · have hm : seg ∈ l := List.getElem?_mem hE
    simpa [List.getD_eq_getElem?_getD, hE] using h seg hm

theorem map_eq_self_of_mem {α : Type _} (f : α → α) :
    ∀ (l : List α), (∀ x ∈ l, f x = x) → l.map f = l := by
  intro l
  induction l with
  | nil => intro _; rfl
  | cons x xs ih =>
    intro h
    rw [List.map_cons, h x (List.mem_cons_self x xs),
        ih (fun y hy => h y (List.mem_cons_of_mem x hy))]

theorem wfRecord_parse_render (t f tm : List Char) (h : cleanTitle t) :
    wfRecord (parseItem (renderHistoryItem t f tm)) := by
  have hsegs : ∀ seg ∈ splitOnChar bulletChar (renderHistoryItem t f tm).span1,
      bulletChar ∉ seg :=
    mem_splitOnChar_not_mem bulletChar _
  refine ⟨?_, ?_, ?_, ?_, ?_⟩
  · show cleanTitle (stripTags t)
    rw [stripTags_clean t h]
    exact h
  · intro hm
    exact not_mem_headD bulletChar _ hsegs (mem_of_mem_trimText _ _ hm)
  · exact trimText_idem _
  · intro hm
    exact not_mem_getD bulletChar _ 1 hsegs (mem_of_mem_trimText _ _ hm)
  · exact trimText_idem _

theorem parse_render_roundtrip (r : HistoryEntry) (h : wfRecord r) :
    parseItem ⟨r.title, r.format ++ sepText ++ r.time⟩ = r := by
  obtain ⟨hclean, hf, hft, htm, htt⟩ := h
  have hsep : r.format ++ sepText ++ r.time
      = (r.format ++ [' ']) ++ bulletChar :: (' ' :: r.time) := by
    simp [sepText, List.append_assoc]
  have hnb : bulletChar ∉ r.format ++ [' '] := by
    intro hm
    rcases List.mem_append.1 hm with hm | hm
    · exact hf hm
    · simp [bulletChar] at hm
  have hnb2 : bulletChar ∉ ' ' :: r.time := by
    intro hm
    rcases List.mem_cons.1 hm with hm | hm
    · exact absurd hm (by decide)
    · exact htm hm
  have hsplit : splitOnChar bulletChar (r.format ++ sepText ++ r.time)
      = [r.format ++ [' '], ' ' :: r.time] := by
    rw [hsep, splitOnChar_append_not_mem _ _ _ hnb,
        splitOnChar_of_not_mem _ _ hnb2]
  have hcompute : parseItem ⟨r.title, r.format ++ sepText ++ r.time⟩
      = { title := stripTags r.title,
          format := trimText
            ((splitOnChar bulletChar (r.format ++ sepText ++ r.time)).headD []),
          time := trimText
            ((splitOnChar bulletChar (r.format ++ sepText ++ r.time)).getD 1 []) } := rfl
  rw [hcompute, hsplit]
  simp only [List.headD_cons, List.getD_cons_succ, List.getD_cons_zero]
  rw [stripTags_clean r.title hclean, trimText_append_ws r.format ' ' rfl,
      trimText_cons_ws r.time ' ' rfl, hft, htt]

theorem capIf_eq_take {α : Type _} (l : List α) (h : l.length ≤ 11) :
    (if l.length > 10 then l.dropLast else l) = l.take 10 := by
  by_cases h10 : l.length > 10
  · rw [if_pos h10, List.dropLast_eq_take]
    congr 1
    omega
  · rw [if_neg h10, List.take_of_length_le (by omega)]

theorem take_append_take {α : Type _} (n : Nat) (A B : List α) :
    (A ++ B.take n).take n = (A ++ B).take n := by
  rw [List.take_append_eq_append_take, List.take_append_eq_append_take, List.take_take]
  congr 2
  omega

theorem appendAll_cons_eq (st : HistoryState) (e : HistoryEntry) (es : List HistoryEntry) :
    appendAll st (e :: es) = appendAll (addToDownloadHistory st e.title e.format e.time) es :=
  rfl

theorem addToDownloadHistory_dom (st : HistoryState) (e : HistoryEntry)
    (h : st.dom.length ≤ 10) :
    (addToDownloadHistory st e.title e.format e.time).dom
      = (renderEntryRecord e :: st.dom).take 10 := by
  show (if (renderHistoryItem e.title e.format e.time :: st.dom).length > 10
      then (renderHistoryItem e.title e.format e.time :: st.dom).dropLast
      else renderHistoryItem e.title e.format e.time :: st.dom)
    = (renderEntryRecord e :: st.dom).take 10
  exact capIf_eq_take _ (by simp; omega)

theorem appendAll_dom (es : List HistoryEntry) :
    ∀ st : HistoryState, st.dom.length ≤ 10 →
      (appendAll st es).dom = ((es.reverse.map renderEntryRecord) ++ st.dom).take 10 := by
  induction es with
  | nil =>
    intro st h
    simp [appendAll, List.take_of_length_le h]
  | cons e es ih =>
    intro st h
    rw [appendAll_cons_eq]
    have h1 := addToDownloadHistory_dom st e h
    have h2 : (addToDownloadHistory st e.title e.format e.time).dom.length ≤ 10 := by
      rw [h1]
      simp [List.length_take]
    rw [ih _ h2, h1, take_append_take]
    simp [List.reverse_cons, List.map_append, List.append_assoc]

theorem appendAll_storage_eq :
    ∀ (es : List HistoryEntry) (st : HistoryState) (e : HistoryEntry),
      (appendAll st (e :: es)).storage
        = saveDownloadHistory (appendAll st (e :: es)).dom := by
  intro es
  induction es with
  | nil => intro st e; rfl
  | cons e2 es ih =>
    intro st e
    exact ih (addToDownloadHistory st e.title e.format e.time) e2

/-! ## Claim theorems: History Store -/

/-- C8: appending 11 entries to an empty history leaves exactly 10
rendered items — the 10 most recently appended, newest first — and
loading the persisted records back and re-serializing them reproduces
the same ordered sequence of title/format/time records that was saved.
The title hypotheses mark the boundary of the text-level embedding:
titles must not contain the literal tag substrings that the serializer
strips, since real HTML parsing is not modelled. -/
theorem c8_history_cap_order_roundtrip (es : List HistoryEntry)
    (hlen : es.length = 11) (hclean : ∀ e ∈ es, cleanTitle e.title) :
    (appendAll emptyHistory es).dom.length = 10
    ∧ (appendAll emptyHistory es).dom = (es.drop 1).reverse.map renderEntryRecord
    ∧ saveDownloadHistory (loadDownloadHistory (appendAll emptyHistory es).storage)
        = (appendAll emptyHistory es).storage := by
  rcases es with _ | ⟨e, rest⟩
  · simp at hlen
  · have hrest : rest.length = 10 := by simpa using hlen
    have hdom : (appendAll emptyHistory (e :: rest)).dom
        = rest.reverse.map renderEntryRecord := by
      rw [appendAll_dom (e :: rest) emptyHistory (by simp [emptyHistory])]
      rw [List.reverse_cons, List.map_append]
      simp only [emptyHistory, List.append_nil]
      exact List.take_left' (by simp [hrest])
    refine ⟨?_, ?_, ?_⟩
    · rw [hdom]
      simp [hrest]
    · rw [hdom]
      rfl
    · have hstor : (appendAll emptyHistory (e :: rest)).storage
          = ((appendAll emptyHistory (e :: rest)).dom).map parseItem :=
        appendAll_storage_eq rest emptyHistory e
    
      have hwf : ∀ r ∈ (appendAll emptyHistory (e :: rest)).storage, wfRecord r := by
        intro r hr
        rw [hstor, hdom] at hr
        rcases List.mem_map.1 hr with ⟨it, hit, hpr⟩
        rcases List.mem_map.1 hit with ⟨e2, he2, hre⟩
        have he2m : e2 ∈ e :: rest :=
          List.mem_cons_of_mem e (List.mem_reverse.1 he2)
        rw [← hpr, ← hre]
        exact wfRecord_parse_render e2.title e2.format e2.time (hclean e2 he2m)
      unfold loadDownloadHistory saveDownloadHistory
      rw [List.map_map]
      apply map_eq_self_of_mem
      intro r hr
      exact parse_render_roundtrip r (hwf r hr)

/-- C8 witness: eleven concrete entries with two-character fields. -/
theorem c8_history_cap_order_roundtrip_witness :
    (appendAll emptyHistory sampleEntries).dom.length = 10
    ∧ (appendAll emptyHistory sampleEntries).dom
        = (sampleEntries.drop 1).reverse.map renderEntryRecord
    ∧ saveDownloadHistory (loadDownloadHistory (appendAll emptyHistory sampleEntries).storage)
        = (appendAll emptyHistory sampleEntries).storage :=
  c8_history_cap_order_roundtrip sampleEntries rfl (by simp only [cleanTitle]; decide)
